import Mathlib

/-!
Shallow embedding of `cms/api.py` (django-cms Python API layer) and proofs
about it.  Each Python function used by the specification claims is
translated into an executable Lean definition over explicit record states;
external collaborators (the ORM query sets, the tree library, the
permission engine, `Page.publish`, `copy_plugins.copy_plugins_to`,
`save_permissions`) are modelled as parameters or as definitions marked
"Modelled from the spec".
-/

set_option maxRecDepth 4000

/-- Error taxonomy of the Python module: `assert` failures, `TypeError`,
`ValidationError`, `FieldError`, `PermissionDenied`, `ImproperlyConfigured`,
`DoesNotExist` and bare `Exception`. -/
inductive ApiError where
  | assertError (msg : String)
  | typeError (msg : String)
  | validationError (msg : String)
  | fieldError (msg : String)
  | permissionDenied
  | improperlyConfigured (msg : String)
  | doesNotExist
  | exception (msg : String)
  deriving Repr, DecidableEq

/-- Decidable equality on `Except`, so that concrete runs of the
embedded operations can be checked by `decide`. -/
instance {ε α : Type} [DecidableEq ε] [DecidableEq α] : DecidableEq (Except ε α) := fun a b =>
  match a, b with
  | .error e, .error f =>
    if h : e = f then .isTrue (by rw [h])
    else .isFalse (by intro hh; cases hh; exact h rfl)
  | .ok x, .ok y =>
    if h : x = y then .isTrue (by rw [h])
    else .isFalse (by intro hh; cases hh; exact h rfl)
  | .error _, .ok _ => .isFalse (by intro hh; cases hh)
  | .ok _, .error _ => .isFalse (by intro hh; cases hh)

/-- Python truthiness of an optional string: `None` and `""` are falsy. -/
def optStrFalsy : Option String → Bool
  | none => true
  | some s => s == ""

/-- Decimal digit characters of a natural number (big-endian), with
explicit fuel; `decimalChars (n+1) n` is the decimal rendering of `n`,
matching Python `str(i)` for the `'%s-%s' % (baseslug, i)` formatting. -/
def decimalChars : Nat → Nat → List Char
  | 0, _ => []
  | fuel+1, n =>
    if n < 10 then [Nat.digitChar n]
    else decimalChars fuel (n / 10) ++ [Nat.digitChar (n % 10)]

/-- Decimal string of a natural number, as Python `str`. -/
def natStr (n : Nat) : String := (decimalChars (n+1) n).asString

/-- Numeric value of a decimal digit character. -/
def digitVal (c : Char) : Nat := c.toNat - 48

/-- Parse a big-endian list of decimal digit characters. -/
def parseDec (l : List Char) : Nat :=
  l.foldl (fun a c => a * 10 + digitVal c) 0

/-- Title rows as seen by the slug generator: language, slug, and the
parent of the title's page (`Title.objects.filter(language=...,
page__parent=...)`). -/
structure TitleRow where
  language : String
  slug : String
  pageParent : Option Nat
  deriving Repr, DecidableEq

/-- Candidate slug `'%s-%s' % (baseslug, i)`. -/
def slugCandidate (baseslug : String) (i : Nat) : String :=
  baseslug ++ "-" ++ natStr i

/-- The `while slug in used` loop of `generate_valid_slug`, with fuel.
`fuel = used.length + 1` suffices: the candidates are pairwise distinct so
one of the first `used.length + 1` of them is free. -/
def slugSearch (baseslug : String) (used : List String) : String → Nat → Nat → String
  | slug, _, 0 => slug
  | slug, i, fuel+1 =>
    if slug ∈ used then slugSearch baseslug used (slugCandidate baseslug i) (i+1) fuel
    else slug

/-- Embedding of `generate_valid_slug(source, parent, language)`.
`slugify` (a Django builtin) is passed as a parameter; `titles` is the
`Title` table. -/
def generate_valid_slug (slugify : String → String) (titles : List TitleRow)
    (source : String) (parent : Option Nat) (language : String) : String :=
  let qs := titles.filter (fun t => t.language == language && t.pageParent == parent)
  let used := qs.map (fun t => t.slug)
  let baseslug := slugify source
  if used.isEmpty then baseslug
  else slugSearch baseslug used baseslug 1 (used.length + 1)

/-- Slugs used by sibling titles under the given parent and language. -/
def usedSiblingSlugs (titles : List TitleRow) (parent : Option Nat)
    (language : String) : List String :=
  (titles.filter (fun t => t.language == language && t.pageParent == parent)).map
    (fun t => t.slug)

/-- Plugin rows: the `CMSPlugin` columns that `add_plugin` reads or
writes (tree path maintenance is left to the external tree library). -/
structure PluginRow where
  id : Nat
  plugin_type : String
  placeholderId : Nat
  language : String
  parent : Option Nat
  position : Nat
  deriving Repr, DecidableEq

/-- How the plugin type argument is passed to `add_plugin`: a registered
`CMSPluginBase` subclass, a string name, or anything else. -/
inductive PluginTypeRef where
  | byClass (name : String)
  | byString (name : String)
  | other
  deriving Repr, DecidableEq

/-- Embedding of `_verify_plugin_type`: returns `(plugin_model,
plugin_type)`; the backing model is identified by the type name. -/
def verify_plugin_type (pool : List String) : PluginTypeRef → Except ApiError (String × String)
  | .byClass name =>
    if name ∈ pool then .ok (name, name)
    else .error (.assertError "plugin_type not registered")
  | .byString name =>
    if name ∈ pool then .ok (name, name)
    else .error (.typeError "plugin_type must be CMSPluginBase subclass or string")
  | .other => .error (.typeError "plugin_type must be CMSPluginBase subclass or string")

/-- Context for `add_plugin`: the registered plugin types and the
truthiness of `CMSPlugin.node_order_by` (falsy on the real model). -/
structure PluginCtx where
  plugin_pool : List String
  node_order_by : Bool
  deriving Repr, DecidableEq

/-- Bump by one the position of every row matched by the shift query. -/
def shiftPositions (db : List PluginRow) (match_ : PluginRow → Bool) : List PluginRow :=
  db.map (fun p => if match_ p then { p with position := p.position + 1 } else p)

/-- Embedding of `add_plugin(placeholder, plugin_type, language, position,
target)`.  Returns the updated plugin table and the created row; the
`add_root`/`move` tree calls maintain only the external path columns and
leave the modelled columns as constructed.  `newId` stands for the store's
autoincrement key. -/
def add_plugin (ctx : PluginCtx) (db : List PluginRow) (placeholderId : Nat)
    (plugin_type : PluginTypeRef) (language : String) (position : String)
    (target : Option PluginRow) (newId : Nat) :
    Except ApiError (List PluginRow × PluginRow) :=
  match verify_plugin_type ctx.plugin_pool plugin_type with
  | .error e => .error e
  | .ok (_plugin_model, ptype) =>
    match target with
    | some t =>
      let computed : Except ApiError (Nat × Option Nat × String) :=
        if position == "last-child" then
          .ok ((db.filter (fun p => p.parent == some t.id)).length, some t.id,
               if ctx.node_order_by then "sorted-child" else position)
        else if position == "first-child" then
          .ok (0, some t.id, if ctx.node_order_by then "sorted-child" else position)
        else if position == "left" then
          .ok (t.position, t.parent, if ctx.node_order_by then "sorted-sibling" else position)
        else if position == "right" then
          .ok (t.position + 1, t.parent, if ctx.node_order_by then "sorted-sibling" else position)
        else
          .error (.exception ("position not supported: " ++ position))
      match computed with
      | .error e => .error e
      | .ok (new_pos, parent_id, _pos) =>
        let db :=
          if position == "last-child" || position == "first-child" then
            shiftPositions db (fun p => p.language == language && p.parent == some t.id &&
              new_pos ≤ p.position && p.placeholderId == placeholderId)
          else
            shiftPositions db (fun p => p.language == language && p.parent == t.parent &&
              new_pos ≤ p.position && p.placeholderId == placeholderId)
        let row : PluginRow :=
          { id := newId, plugin_type := ptype, placeholderId := placeholderId,
            language := language, parent := parent_id, position := new_pos }
        .ok (db ++ [row], row)
    | none =>
      let new_pos :=
        if position == "last-child" then
          (db.filter (fun p => p.language == language && p.parent == none &&
            p.placeholderId == placeholderId)).length
        else 0
      let db :=
        if position == "last-child" then db
        else
          shiftPositions db (fun p => p.language == language && p.parent == none &&
            new_pos ≤ p.position && p.placeholderId == placeholderId)
      let row : PluginRow :=
        { id := newId, plugin_type := ptype, placeholderId := placeholderId,
          language := language, parent := none, position := new_pos }
      .ok (db ++ [row], row)

/-- Root-level siblings of a placeholder for a language: the rows matched
by `filter(language=language, parent__isnull=True, placeholder=placeholder)`. -/
def isRootSibling (placeholderId : Nat) (language : String) (p : PluginRow) : Bool :=
  p.language == language && p.parent == none && p.placeholderId == placeholderId

/-- Sentinel `cms.constants.TEMPLATE_INHERITANCE_MAGIC`. -/
def TEMPLATE_INHERITANCE_MAGIC : String := "INHERIT"

/-- Menu visibility constants (`VISIBILITY_ALL` is the falsy default). -/
def VISIBILITY_ALL : Option Nat := none

/-- Menu visibility: restrict to logged-in users. -/
def VISIBILITY_USERS : Option Nat := some 1

/-- Menu visibility: restrict to anonymous users. -/
def VISIBILITY_ANONYMOUS : Option Nat := some 2

/-- How the apphook argument is passed to `create_page`: a `CMSApp`
instance, a `CMSApp` subclass, or a string name. -/
inductive ApphookRef where
  | byInstance (className : String)
  | byClass (className : String)
  | byString (name : String)
  deriving Repr, DecidableEq

/-- The registered apphooks: name paired with the app's declared
`app_name` (an optional string). -/
def lookupApphook (pool : List (String × Option String)) (name : String) :
    Option (Option String) :=
  (pool.find? (fun e => e.1 == name)).map (fun e => e.2)

/-- Embedding of `_verify_apphook(apphook, namespace)`: normalizes the
apphook to its name.  An instance must be registered and is then subject
to the `app_name`/namespace check; a class returns its name at once,
before that check; a string must be a registered name and is then subject
to the check. -/
def verify_apphook (pool : List (String × Option String)) (apphook : ApphookRef)
    (ns : Option String) : Except ApiError String :=
  match apphook with
  | .byInstance className =>
    if (lookupApphook pool className).isNone then
      .error (.assertError "apphook class not registered")
    else
      match lookupApphook pool className with
      | some appName =>
        if !optStrFalsy appName && optStrFalsy ns then
          .error (.validationError "apphook with app_name must define a namespace")
        else .ok className
      | none => .error (.assertError "apphook class not registered")
  | .byClass className => .ok className
  | .byString name =>
    if (lookupApphook pool name).isNone then
      .error (.assertError "apphook not in pool")
    else
      match lookupApphook pool name with
      | some appName =>
        if !optStrFalsy appName && optStrFalsy ns then
          .error (.validationError "apphook with app_name must define a namespace")
        else .ok name
      | none => .error (.assertError "apphook not in pool")

/-- The normalized apphook name `_verify_apphook` returns on success. -/
def apphookName : ApphookRef → String
  | .byInstance className => className
  | .byClass className => className
  | .byString name => name

/-- Page rows: the `Page` columns assigned by `create_page`.  Dates are
opaque tokens; pages created through the API are drafts. -/
structure PageRec where
  id : Nat
  created_by : String
  changed_by : String
  parent : Option Nat
  publication_date : Option Nat
  publication_end_date : Option Nat
  in_navigation : Bool
  soft_root : Bool
  reverse_id : Option String
  navigation_extenders : Option String
  template : String
  application_urls : Option String
  application_namespace : Option String
  site : Nat
  login_required : Bool
  limit_visibility_in_menu : Option Nat
  xframe_options : Nat
  publisher_is_draft : Bool := true
  deriving Repr, DecidableEq

/-- Title rows as created by `create_title`. -/
structure TitleFull where
  pageId : Nat
  language : String
  title : String
  menu_title : Option String
  slug : String
  redirect : Option String
  meta_description : Option String
  has_url_overwrite : Bool := false
  path : Option String := none
  deriving Repr, DecidableEq

/-- The relational store the page API reads and writes: pages, titles and
the log of `(page, language)` publish operations. -/
structure CmsDB where
  pages : List PageRec
  titles : List TitleFull
  published : List (Nat × String)
  deriving Repr, DecidableEq

/-- Project configuration consumed through `get_cms_setting`, the site
framework, the template loader, the menu registry, the apphook registry
and `slugify`. -/
structure CmsConfig where
  templates : List String
  loadableTemplates : List String
  currentSite : Nat
  languagesOfSite : Nat → List String
  menus : List String
  apphooks : List (String × Option String)
  reversionInstalled : Bool
  slugify : String → String

/-- View of the title table joined with each title's page parent, as the
`Title.objects.filter(language=..., page__parent=...)` query reads it. -/
def titleSlugView (db : CmsDB) : List TitleRow :=
  db.titles.filterMap (fun t =>
    (db.pages.find? (fun p => p.id == t.pageId)).map
      (fun pg => { language := t.language, slug := t.slug, pageParent := pg.parent }))

/-- Modelled from the spec: the content-tree `Page.publish(language)`
operation lives in `cms/models/pagemodel.py`, which is not part of the
given sources; per the spec it "promotes draft content to a public,
queryable state" and leaves the draft's stored columns alone.  It is
modelled as appending to the publish log. -/
def pagePublishDB (db : CmsDB) (pageId : Nat) (language : String) : CmsDB :=
  { db with published := db.published ++ [(pageId, language)] }

/-- Embedding of `create_title(language, title, page, ...)`. -/
def create_title (cfg : CmsConfig) (db : CmsDB) (language : String) (title : String)
    (page : PageRec) (menu_title : Option String) (slug : Option String)
    (redirect : Option String) (meta_description : Option String)
    (parent : Option Nat) (overwrite_url : Option String) (with_revision : Bool) :
    Except ApiError (CmsDB × TitleFull) :=
  if language ∉ cfg.languagesOfSite page.site then
    .error (.assertError "language not enabled for the page site")
  else if with_revision && !cfg.reversionInstalled then
    .error (.improperlyConfigured "reversion app is not in settings.INSTALLED_APPS")
  else
    let slugVal :=
      if optStrFalsy slug then generate_valid_slug cfg.slugify (titleSlugView db) title parent language
      else slug.getD ""
    let t0 : TitleFull :=
      { pageId := page.id, language := language, title := title,
        menu_title := menu_title, slug := slugVal, redirect := redirect,
        meta_description := meta_description }
    let t :=
      if optStrFalsy overwrite_url then t0
      else { t0 with has_url_overwrite := true, path := overwrite_url }
    .ok ({ db with titles := db.titles ++ [t] }, t)

/-- Arguments of `create_page`, with the Python defaults. -/
structure CreatePageArgs where
  title : String
  template : String
  language : String
  menu_title : Option String := none
  slug : Option String := none
  apphook : Option ApphookRef := none
  apphook_namespace : Option String := none
  redirect : Option String := none
  meta_description : Option String := none
  created_by : String := "python-api"
  parent : Option Nat := none
  publication_date : Option Nat := none
  publication_end_date : Option Nat := none
  in_navigation : Bool := false
  soft_root : Bool := false
  reverse_id : Option String := none
  navigation_extenders : Option String := none
  published : Bool := false
  site : Option Nat := none
  login_required : Bool := false
  limit_visibility_in_menu : Option Nat := VISIBILITY_ALL
  position : String := "last-child"
  overwrite_url : Option String := none
  xframe_options : Nat := 0
  with_revision : Bool := false

/-- Embedding of `create_page(...)`: the validation sequence in source
order, then the page insert, the tree move (external; the modelled
`parent` column is already set), the title insert, the optional publish,
and the final `page.reload()`.  `newId` stands for the store's
autoincrement key. -/
def create_page (cfg : CmsConfig) (db : CmsDB) (a : CreatePageArgs) (newId : Nat) :
    Except ApiError (CmsDB × PageRec) :=
  if a.with_revision && !cfg.reversionInstalled then
    .error (.improperlyConfigured "reversion app is not in settings.INSTALLED_APPS")
  else if a.template != TEMPLATE_INHERITANCE_MAGIC && a.template ∉ cfg.templates then
    .error (.assertError "template not in CMS_TEMPLATES")
  else if a.template != TEMPLATE_INHERITANCE_MAGIC && a.template ∉ cfg.loadableTemplates then
    .error (.exception "TemplateDoesNotExist")
  else
    let site := match a.site with | none => cfg.currentSite | some s => s
    if a.language ∉ cfg.languagesOfSite site then
      .error (.assertError "language not enabled for the site")
    else
      let slug :=
        if optStrFalsy a.slug then
          generate_valid_slug cfg.slugify (titleSlugView db) a.title a.parent a.language
        else a.slug.getD ""
      let parentRec := a.parent.bind (fun pid => db.pages.find? (fun p => p.id == pid))
      if a.parent.isSome && parentRec.isNone then
        .error .doesNotExist
      else if (match a.navigation_extenders with
               | none => false
               | some nav => nav ∉ cfg.menus) then
        .error (.assertError "navigation extender not registered")
      else if a.limit_visibility_in_menu ∉ [VISIBILITY_ALL, VISIBILITY_USERS, VISIBILITY_ANONYMOUS] then
        .error (.assertError "invalid menu visibility limitation")
      else if a.position ∉ ["last-child", "first-child", "left", "right"] then
        .error (.assertError "invalid position")
      else
        let parent_id : Option Nat :=
          match parentRec with
          | some pr =>
            if a.position == "last-child" || a.position == "first-child" then some pr.id
            else pr.parent
          | none => none
        let verified : Except ApiError (Option String) :=
          match a.apphook with
          | some ah =>
            match verify_apphook cfg.apphooks ah a.apphook_namespace with
            | .ok name => .ok (some name)
            | .error e => .error e
          | none => .ok none
        match verified with
        | .error e => .error e
        | .ok application_urls =>
          if !optStrFalsy a.reverse_id &&
              (db.pages.filter (fun p => p.publisher_is_draft &&
                p.reverse_id == a.reverse_id && p.site == site)).length != 0 then
            .error (.fieldError "A page with this reverse_id already exists.")
          else
            let page : PageRec :=
              { id := newId, created_by := a.created_by, changed_by := a.created_by,
                parent := parent_id, publication_date := a.publication_date,
                publication_end_date := a.publication_end_date,
                in_navigation := a.in_navigation, soft_root := a.soft_root,
                reverse_id := a.reverse_id,
                navigation_extenders := a.navigation_extenders,
                template := a.template, application_urls := application_urls,
                application_namespace := a.apphook_namespace, site := site,
                login_required := a.login_required,
                limit_visibility_in_menu := a.limit_visibility_in_menu,
                xframe_options := a.xframe_options }
            let db1 := { db with pages := db.pages ++ [page] }
            match create_title cfg db1 a.language a.title page a.menu_title (some slug)
                a.redirect a.meta_description none a.overwrite_url false with
            | .error e => .error e
            | .ok (db2, _t) =>
              let db3 := if a.published then pagePublishDB db2 newId a.language else db2
              match db3.pages.find? (fun p => p.id == newId) with
              | some p => .ok (db3, p)
              | none => .error .doesNotExist

/-- User rows: the local fields of the user model that `create_page_user`
reads, mutates and copies. -/
structure UserRec where
  username : String
  email : String
  is_staff : Bool
  is_active : Bool
  is_superuser : Bool
  deriving Repr, DecidableEq

/-- The `PageUser` row: a copy of every local user field, the creator,
and the permission data handed to the external `save_permissions`. -/
structure PageUserRec where
  userFields : UserRec
  created_by : UserRec
  permissions : List (String × Bool)
  deriving Repr, DecidableEq

/-- Observable effects of `create_page_user`: the object the call
returns, the state in which the passed user object is saved, and the
`PageUser` row saved. -/
structure PageUserResult where
  returned : UserRec
  savedUser : UserRec
  savedPageUser : PageUserRec
  deriving Repr, DecidableEq

/-- Body of `create_page_user` past the `grant_all` shortcut: mutate the
user's `is_staff`/`is_active`, copy every local user field onto the new
`PageUser`, save both, hand the flag data to `save_permissions`, and
return the user. -/
def create_page_user_main (created_by user : UserRec)
    (can_add_page can_view_page can_change_page can_delete_page
     can_recover_page can_add_pageuser can_change_pageuser can_delete_pageuser
     can_add_pagepermission can_change_pagepermission can_delete_pagepermission : Bool) :
    PageUserResult :=
  let data : List (String × Bool) :=
    [("can_add_page", can_add_page), ("can_view_page", can_view_page),
     ("can_change_page", can_change_page), ("can_delete_page", can_delete_page),
     ("can_recover_page", can_recover_page), ("can_add_pageuser", can_add_pageuser),
     ("can_change_pageuser", can_change_pageuser),
     ("can_delete_pageuser", can_delete_pageuser),
     ("can_add_pagepermission", can_add_pagepermission),
     ("can_change_pagepermission", can_change_pagepermission),
     ("can_delete_pagepermission", can_delete_pagepermission)]
  let user := { user with is_staff := true, is_active := true }
  let page_user : PageUserRec :=
    { userFields := user, created_by := created_by, permissions := data }
  { returned := user, savedUser := user, savedPageUser := page_user }

/-- Embedding of `create_page_user(created_by, user, ..., grant_all)`;
`grant_all=True` re-enters with every flag granted. -/
def create_page_user (created_by user : UserRec)
    (can_add_page can_view_page can_change_page can_delete_page
     can_recover_page can_add_pageuser can_change_pageuser can_delete_pageuser
     can_add_pagepermission can_change_pagepermission can_delete_pagepermission
     grant_all : Bool) : PageUserResult :=
  if grant_all then
    create_page_user_main created_by user
      true true true true true true true true true true true
  else
    create_page_user_main created_by user
      can_add_page can_view_page can_change_page can_delete_page
      can_recover_page can_add_pageuser can_change_pageuser can_delete_pageuser
      can_add_pagepermission can_change_pagepermission can_delete_pagepermission

/-- Publication state for `publish_page`: the page table and the log of
publish operations `(page id, language, acting username)`. -/
structure PublishState where
  pages : List PageRec
  publishLog : List (Nat × String × String)
  deriving Repr, DecidableEq

/-- Modelled from the spec: `Page.publish(language)` under a current
user (both `cms/models/pagemodel.py` and `cms/utils/permissions.py` are
outside the given sources).  Per the spec it promotes the draft under the
acting user's identity so authorship is attributed; modelled as appending
to the publish log. -/
def pagePublishAs (st : PublishState) (pageId : Nat) (language : String)
    (actingUsername : String) : PublishState :=
  { st with publishLog := st.publishLog ++ [(pageId, language, actingUsername)] }

/-- Embedding of `publish_page(page, user, language)`.  The permission
engine (`page.has_publish_permission`, outside the given sources) is the
parameter `perm`; the tree publish operation is the parameter
`publishOp` so that its non-invocation on the denied path is expressible. -/
def publish_page (perm : PageRec → UserRec → Bool)
    (publishOp : PublishState → Nat → String → String → PublishState)
    (st : PublishState) (page : PageRec) (user : UserRec) (language : String) :
    Except ApiError (PublishState × PageRec) :=
  match st.pages.find? (fun p => p.id == page.id) with
  | none => .error .doesNotExist
  | some page =>
    if !perm page user then .error .permissionDenied
    else
      let st1 := publishOp st page.id language user.username
      match st1.pages.find? (fun p => p.id == page.id) with
      | none => .error .doesNotExist
      | some p => .ok (st1, p)

/-- Title rows as `publish_pages` reads them. -/
structure BulkTitle where
  language : String
  published : Bool
  deriving Repr, DecidableEq

/-- Draft pages as `publish_pages` reads them. -/
structure BulkPage where
  id : Nat
  site : Nat
  titles : List BulkTitle
  deriving Repr, DecidableEq

/-- Python truthiness of the `output_language` variable (`None` and `""`
are falsy). -/
def outLangFalsy : Option String → Bool
  | none => true
  | some s => s == ""

/-- One iteration of the language loop of `publish_pages`: when the
language matches the filter, update `output_language` if it is still
falsy and attempt `page.publish(lang)`, clearing the success flag on
failure. -/
def bulkStepFn (pub : Nat → String → Bool) (pageId : Nat) (language : Option String)
    (acc : Option String × Bool) (lang : String) : Option String × Bool :=
  if language.isNone || language == some lang then
    (if outLangFalsy acc.1 then some lang else acc.1,
     if pub pageId lang then acc.2 else false)
  else acc

/-- Inner loop of `publish_pages` over one page's title languages:
updates `output_language` and the page's success flag, attempting
`page.publish(lang)` for every matching language. -/
def bulkPageStep (pub : Nat → String → Bool) (pageId : Nat) (language : Option String)
    (langs : List String) (olang : Option String) : Option String × Bool :=
  langs.foldl (bulkStepFn pub pageId language) (olang, true)

/-- Title languages `publish_pages` iterates for one page
(`titles.values_list("language", flat=True)` after the optional
`published=True` filter). -/
def bulkTitleLangs (include_unpublished : Bool) (p : BulkPage) : List String :=
  (if include_unpublished then p.titles else p.titles.filter (fun t => t.published)).map
    (fun t => t.language)

/-- Outer loop of `publish_pages`: for each page compute its success
flag, thread `output_language` through, and record the argument of the
`activate(output_language)` call made on every iteration. -/
def publishPagesLoop (pub : Nat → String → Bool) (include_unpublished : Bool)
    (language : Option String) :
    Option String → List BulkPage → List (BulkPage × Bool) × List (Option String)
  | _, [] => ([], [])
  | olang, p :: rest =>
    let step := bulkPageStep pub p.id language (bulkTitleLangs include_unpublished p) olang
    let tail := publishPagesLoop pub include_unpublished language step.1 rest
    ((p, step.2) :: tail.1, step.1 :: tail.2)

/-- The query set of `publish_pages`: drafts, optionally only those with
a published title, optionally restricted to one site. -/
def bulkQuerySet (drafts : List BulkPage) (include_unpublished : Bool)
    (site : Option Nat) : List BulkPage :=
  let qs := if include_unpublished then drafts
            else drafts.filter (fun p => p.titles.any (fun t => t.published))
  match site with
  | none => qs
  | some s => qs.filter (fun p => p.site == s)

/-- Embedding of `publish_pages(include_unpublished, language, site)`:
returns the yielded `(page, success)` pairs and the list of locales
passed to `activate`, in order.  `page.publish` (outside the given
sources) is the boolean-returning parameter `pub`. -/
def publish_pages (pub : Nat → String → Bool) (drafts : List BulkPage)
    (include_unpublished : Bool) (language : Option String) (site : Option Nat) :
    List (BulkPage × Bool) × List (Option String) :=
  publishPagesLoop pub include_unpublished language none
    (bulkQuerySet drafts include_unpublished site)

/-- Plugin rows as the language copy reads them: language and the tree
path the `order_by('path')` sorts on. -/
structure CPPlugin where
  language : String
  path : String
  body : String
  deriving Repr, DecidableEq

/-- A placeholder with its `cmsplugin_set`. -/
structure CPPlaceholder where
  id : Nat
  plugins : List CPPlugin
  deriving Repr, DecidableEq

/-- A page as the language copy reads it: its placeholders. -/
structure CPPage where
  placeholders : List CPPlaceholder
  deriving Repr, DecidableEq

/-- The source-language plugins of a placeholder in tree order
(`cmsplugin_set.filter(language=source_language).order_by('path')`). -/
def sourcePluginsOrdered (ph : CPPlaceholder) (source_language : String) : List CPPlugin :=
  (ph.plugins.filter (fun p => p.language == source_language)).mergeSort
    (fun a b => a.path ≤ b.path)

/-- Modelled from the spec: `cms.utils.copy_plugins.copy_plugins_to`
(outside the given sources) duplicates the given plugins into the
placeholder under the target language preserving their order, and returns
the list of new plugins. -/
def copy_plugins_to (plugins : List CPPlugin) (target_language : String) : List CPPlugin :=
  plugins.map (fun p => { p with language := target_language })

/-- One placeholder's outcome in `copy_plugins_to_language`: skip it when
`only_empty` holds and the target language already has plugins there,
otherwise append the copies. -/
def copyPlaceholderStep (source_language target_language : String) (only_empty : Bool)
    (ph : CPPlaceholder) : CPPlaceholder × Nat :=
  if !only_empty || !(ph.plugins.any (fun p => p.language == target_language)) then
    let copied_plugins := copy_plugins_to (sourcePluginsOrdered ph source_language) target_language
    ({ ph with plugins := ph.plugins ++ copied_plugins }, copied_plugins.length)
  else (ph, 0)

/-- Embedding of `copy_plugins_to_language(page, source_language,
target_language, only_empty)`: returns the number of copied plugins and
the resulting page state. -/
def copy_plugins_to_language (page : CPPage) (source_language target_language : String)
    (only_empty : Bool) : Nat × CPPage :=
  let outcomes := page.placeholders.map
    (copyPlaceholderStep source_language target_language only_empty)
  ((outcomes.map (fun o => o.2)).sum, { placeholders := outcomes.map (fun o => o.1) })

/-- The languages of a page that one `publish_pages` call targets: the
iterated title languages restricted by the `language` argument. -/
def bulkTargetedLangs (include_unpublished : Bool) (language : Option String)
    (p : BulkPage) : List String :=
  (bulkTitleLangs include_unpublished p).filter
    (fun lang => language.isNone || language == some lang)

/-- The first targeted language across a list of pages, if any. -/
def firstTargetedLang (include_unpublished : Bool) (language : Option String)
    (pages : List BulkPage) : Option String :=
  (pages.flatMap (bulkTargetedLangs include_unpublished language)).head?

/-- Total number of plugin rows on a page. -/
def CPPage.totalPlugins (pg : CPPage) : Nat :=
  (pg.placeholders.map (fun ph => ph.plugins.length)).sum

/-! ## Lemmas about the decimal rendering and the slug search -/

theorem digitVal_digitChar : ∀ n, n < 10 → digitVal (Nat.digitChar n) = n := by
  decide

theorem parse_decimalChars :
    ∀ (fuel n a : Nat), n < fuel →
      (decimalChars fuel n).foldl (fun a c => a * 10 + digitVal c) a =
        a * 10 ^ (decimalChars fuel n).length + n := by
  intro fuel
  induction fuel with
  | zero => intro n a h; omega
  | succ m ih =>
    intro n a h
    by_cases hlt : n < 10
    · simp [decimalChars, hlt, digitVal_digitChar n hlt]
    · have hn10 : 10 ≤ n := Nat.le_of_not_lt hlt
      have hdiv : n / 10 < m := by
        have h1 : n / 10 < n := Nat.div_lt_self (by omega) (by omega)
        omega
      simp only [decimalChars, if_neg hlt, List.foldl_append, List.length_append,
        List.foldl_cons, List.foldl_nil, List.length_cons, List.length_nil]
      rw [ih (n / 10) a hdiv]
      rw [digitVal_digitChar (n % 10) (Nat.mod_lt n (by omega))]
      rw [pow_succ]
      have := Nat.div_add_mod n 10
      ring_nf
      omega

theorem natStr_injective : Function.Injective natStr := by
  intro a b h
  have hdata : decimalChars (a + 1) a = decimalChars (b + 1) b := by
    have := congrArg String.data h
    simpa [natStr] using this
  have ha := parse_decimalChars (a + 1) a 0 (Nat.lt_succ_self a)
  have hb := parse_decimalChars (b + 1) b 0 (Nat.lt_succ_self b)
  rw [hdata] at ha
  omega

theorem slugCandidate_injective (baseslug : String) :
    Function.Injective (slugCandidate baseslug) := by
  intro a b h
  apply natStr_injective
  apply String.ext
  have hdata := congrArg String.data h
  simp only [slugCandidate, String.data_append, List.append_assoc] at hdata
  exact List.append_cancel_left (List.append_cancel_left hdata)

theorem slugSearch_not_mem (baseslug : String) (used : List String) :
    ∀ (fuel : Nat) (slug : String) (i : Nat),
      (slug ∉ used ∨ ∃ j, i ≤ j ∧ j < i + fuel ∧ slugCandidate baseslug j ∉ used) →
      slugSearch baseslug used slug i fuel ∉ used := by
  intro fuel
  induction fuel with
  | zero =>
    intro slug i h
    rcases h with h | ⟨j, hij, hlt, _⟩
    · simpa [slugSearch] using h
    · omega
  | succ m ih =>
    intro slug i h
    by_cases hmem : slug ∈ used
    · rw [slugSearch, if_pos hmem]
      apply ih
      rcases h with h | ⟨j, hij, hlt, hfree⟩
      · exact absurd hmem h
      · rcases Nat.eq_or_lt_of_le hij with rfl | hij2
        · exact Or.inl hfree
        · exact Or.inr ⟨j, hij2, by omega, hfree⟩
    · rw [slugSearch, if_neg hmem]
      exact hmem

theorem exists_free_candidate (baseslug : String) (used : List String) :
    ∃ j, 1 ≤ j ∧ j < 1 + (used.length + 1) ∧ slugCandidate baseslug j ∉ used := by
  by_contra hcon
  push_neg at hcon
  have hsub : ((List.range' 1 (used.length + 1)).map (slugCandidate baseslug)).toFinset ⊆
      used.toFinset := by
    intro x hx
    rw [List.mem_toFinset] at hx ⊢
    rcases List.mem_map.mp hx with ⟨j, hj, rfl⟩
    rcases List.mem_range'_1.mp hj with ⟨h1, h2⟩
    exact hcon j h1 (by omega)
  have hnd : ((List.range' 1 (used.length + 1)).map (slugCandidate baseslug)).Nodup :=
    (List.nodup_range' _ _).map (slugCandidate_injective baseslug)
  have hcard := Finset.card_le_card hsub
  rw [List.toFinset_card_of_nodup hnd] at hcard
  have hle := List.toFinset_card_le (l := used)
  simp at hcard
  omega

/-- C1: for every source string, parent node and language,
`generate_valid_slug` returns a slug not used by any existing sibling
title under the same parent and language; and with base slug "news",
successive calls against the accumulating sibling set yield "news",
"news-1", "news-2". -/
theorem generate_valid_slug_unique_and_successive :
    (∀ (slugify : String → String) (titles : List TitleRow) (source : String)
        (parent : Option Nat) (language : String),
      generate_valid_slug slugify titles source parent language ∉
        usedSiblingSlugs titles parent language) ∧
    generate_valid_slug (fun _ => "news") [] "News" none "en" = "news" ∧
    generate_valid_slug (fun _ => "news")
      [⟨"en", "news", none⟩] "News" none "en" = "news-1" ∧
    generate_valid_slug (fun _ => "news")
      [⟨"en", "news", none⟩, ⟨"en", "news-1", none⟩] "News" none "en" = "news-2" := by
  refine ⟨?_, by decide, by decide, by decide⟩
  intro slugify titles source parent language
  simp only [generate_valid_slug, usedSiblingSlugs]
  set used := (titles.filter
    (fun t => t.language == language && t.pageParent == parent)).map (fun t => t.slug) with hused
  by_cases hempty : used.isEmpty
  · rw [if_pos hempty]
    rw [List.isEmpty_iff] at hempty
    rw [hempty]
    exact List.not_mem_nil _
  · rw [if_neg hempty]
    apply slugSearch_not_mem
    rcases exists_free_candidate (slugify source) used with ⟨j, h1, h2, hfree⟩
    exact Or.inr ⟨j, h1, h2, hfree⟩

/-! ## Lemmas and claims about `add_plugin` and `create_page_user` -/

theorem filter_map_cond (db : List PluginRow) (q : PluginRow → Bool)
    (f : PluginRow → PluginRow) (hf : ∀ p, q (f p) = q p) :
    (db.map (fun p => if q p then f p else p)).filter q = (db.filter q).map f := by
  induction db with
  | nil => simp
  | cons a l ih =>
    by_cases hq : q a
    · simp [hq, hf, ih]
    · simp [hq, ih]

/-- C5: `add_plugin` with position "first-child" and no target creates
the new plugin at position 0, increments the position of exactly the
existing root-level plugins of that placeholder and language by one (so
positions 0..N-1 become 1..N), and leaves every other plugin row
unmodified. -/
theorem add_plugin_first_child_positions (ctx : PluginCtx) (db : List PluginRow)
    (placeholderId : Nat) (plugin_type : PluginTypeRef) (language : String)
    (newId : Nat) (m ty : String)
    (hver : verify_plugin_type ctx.plugin_pool plugin_type = .ok (m, ty)) :
    add_plugin ctx db placeholderId plugin_type language "first-child" none newId =
      .ok (db.map (fun p => if isRootSibling placeholderId language p
              then { p with position := p.position + 1 } else p) ++
             [⟨newId, ty, placeholderId, language, none, 0⟩],
           ⟨newId, ty, placeholderId, language, none, 0⟩) ∧
    (∀ p ∈ db, isRootSibling placeholderId language p = false →
      p ∈ db.map (fun p => if isRootSibling placeholderId language p
            then { p with position := p.position + 1 } else p)) ∧
    ((db.filter (isRootSibling placeholderId language)).map (fun p => p.position) =
        List.range (db.filter (isRootSibling placeholderId language)).length →
      ((db.map (fun p => if isRootSibling placeholderId language p
            then { p with position := p.position + 1 } else p)).filter
          (isRootSibling placeholderId language)).map (fun p => p.position) =
        List.range' 1 (db.filter (isRootSibling placeholderId language)).length) := by
  refine ⟨?_, ?_, ?_⟩
  · simp only [add_plugin, hver]
    have h1 : (("first-child" : String) == "last-child") = false := by decide
    simp only [h1, Bool.false_eq_true, if_neg, shiftPositions, isRootSibling]
    simp
  · intro p hp hfalse
    exact List.mem_map.mpr ⟨p, hp, by simp [hfalse]⟩
  · intro hpos
    rw [filter_map_cond db (isRootSibling placeholderId language)
      (fun p => { p with position := p.position + 1 }) (fun p => by simp [isRootSibling])]
    rw [List.map_map]
    have : ((fun p => p.position) ∘ fun p : PluginRow => { p with position := p.position + 1 }) =
        (fun p : PluginRow => p.position + 1) := rfl
    rw [this]
    have hcomp : (fun p : PluginRow => p.position + 1) =
        ((fun n => n + 1) ∘ fun p : PluginRow => p.position) := rfl
    rw [hcomp, ← List.map_map, hpos]
    simp [List.range'_eq_map_range, Nat.add_comm]

/-- C5 witness: a concrete placeholder with two root plugins at positions
0 and 1; the insert puts the new plugin at 0 and moves them to 1 and 2. -/
theorem add_plugin_first_child_positions_witness :
    add_plugin ⟨["TextPlugin"], false⟩
        [⟨1, "TextPlugin", 5, "en", none, 0⟩, ⟨2, "TextPlugin", 5, "en", none, 1⟩]
        5 (.byString "TextPlugin") "en" "first-child" none 9 =
      .ok ([⟨1, "TextPlugin", 5, "en", none, 1⟩, ⟨2, "TextPlugin", 5, "en", none, 2⟩,
            ⟨9, "TextPlugin", 5, "en", none, 0⟩],
           ⟨9, "TextPlugin", 5, "en", none, 0⟩) := by
  have h := add_plugin_first_child_positions ⟨["TextPlugin"], false⟩
    [⟨1, "TextPlugin", 5, "en", none, 0⟩, ⟨2, "TextPlugin", 5, "en", none, 1⟩]
    5 (.byString "TextPlugin") "en" 9 "TextPlugin" "TextPlugin" (by decide)
  rw [h.1]
  decide

/-- C2 counterexample: with no target, a position value outside the four
supported literals does not fail; `add_plugin` succeeds and inserts the
plugin at position 0. -/
theorem add_plugin_invalid_position_counterexample :
    "bogus" ∉ ["last-child", "first-child", "left", "right"] ∧
    add_plugin ⟨["TextPlugin"], false⟩ [] 1 (.byString "TextPlugin") "en" "bogus" none 7 =
      .ok ([⟨7, "TextPlugin", 1, "en", none, 0⟩], ⟨7, "TextPlugin", 1, "en", none, 0⟩) := by
  exact ⟨by decide, by decide⟩

/-- C2 amended: for a position value outside {last-child, first-child,
left, right} and a resolvable plugin type, `add_plugin` fails with the
"position not supported" error only when a target plugin is supplied;
without a target the position is treated like "first-child" and the call
succeeds, inserting the new plugin at position 0 under no parent. -/
theorem add_plugin_invalid_position_amended (ctx : PluginCtx) (db : List PluginRow)
    (placeholderId : Nat) (plugin_type : PluginTypeRef) (language pos : String)
    (newId : Nat) (t : PluginRow) (m ty : String)
    (hpos : pos ∉ ["last-child", "first-child", "left", "right"])
    (hver : verify_plugin_type ctx.plugin_pool plugin_type = .ok (m, ty)) :
    add_plugin ctx db placeholderId plugin_type language pos (some t) newId =
      .error (.exception ("position not supported: " ++ pos)) ∧
    ∃ newdb, add_plugin ctx db placeholderId plugin_type language pos none newId =
      .ok (newdb, ⟨newId, ty, placeholderId, language, none, 0⟩) := by
  simp only [List.mem_cons, List.not_mem_nil, or_false] at hpos
  push_neg at hpos
  obtain ⟨h1, h2, h3, h4⟩ := hpos
  have b1 : (pos == "last-child") = false := beq_eq_false_iff_ne.mpr h1
  have b2 : (pos == "first-child") = false := beq_eq_false_iff_ne.mpr h2
  have b3 : (pos == "left") = false := beq_eq_false_iff_ne.mpr h3
  have b4 : (pos == "right") = false := beq_eq_false_iff_ne.mpr h4
  constructor
  · simp only [add_plugin, hver, b1, b2, b3, b4, Bool.false_eq_true, if_false]
  · have hok : add_plugin ctx db placeholderId plugin_type language pos none newId =
        .ok (shiftPositions db (fun p => p.language == language && p.parent == none &&
              0 ≤ p.position && p.placeholderId == placeholderId) ++
             [⟨newId, ty, placeholderId, language, none, 0⟩],
             ⟨newId, ty, placeholderId, language, none, 0⟩) := by
      simp only [add_plugin, hver, b1, Bool.false_eq_true, if_false]
    exact ⟨_, hok⟩

/-- C2 witness: a concrete run of the amended statement at position
"bogus", with and without a target. -/
theorem add_plugin_invalid_position_amended_witness :
    add_plugin ⟨["TextPlugin"], false⟩ [] 1 (.byString "TextPlugin") "en" "weird"
        (some ⟨3, "TextPlugin", 1, "en", none, 0⟩) 7 =
      .error (.exception ("position not supported: " ++ "weird")) ∧
    ∃ newdb, add_plugin ⟨["TextPlugin"], false⟩ [] 1 (.byString "TextPlugin") "en" "weird"
        none 7 = .ok (newdb, ⟨7, "TextPlugin", 1, "en", none, 0⟩) :=
  add_plugin_invalid_position_amended ⟨["TextPlugin"], false⟩ [] 1
    (.byString "TextPlugin") "en" "weird" 7 ⟨3, "TextPlugin", 1, "en", none, 0⟩
    "TextPlugin" "TextPlugin" (by decide) (by decide)

/-- C10: `create_page_user` always returns the passed user object (not
the created page user), with its `is_staff` and `is_active` flags forced
to true and saved in that state, and the new `PageUser` row carries a
copy of every (mutated) user field plus the creator. -/
theorem create_page_user_mutates_and_returns_user (created_by user : UserRec)
    (can_add_page can_view_page can_change_page can_delete_page
     can_recover_page can_add_pageuser can_change_pageuser can_delete_pageuser
     can_add_pagepermission can_change_pagepermission can_delete_pagepermission
     grant_all : Bool) :
    (create_page_user created_by user can_add_page can_view_page can_change_page
        can_delete_page can_recover_page can_add_pageuser can_change_pageuser
        can_delete_pageuser can_add_pagepermission can_change_pagepermission
        can_delete_pagepermission grant_all).returned =
      { user with is_staff := true, is_active := true } ∧
    (create_page_user created_by user can_add_page can_view_page can_change_page
        can_delete_page can_recover_page can_add_pageuser can_change_pageuser
        can_delete_pageuser can_add_pagepermission can_change_pagepermission
        can_delete_pagepermission grant_all).savedUser =
      { user with is_staff := true, is_active := true } ∧
    (create_page_user created_by user can_add_page can_view_page can_change_page
        can_delete_page can_recover_page can_add_pageuser can_change_pageuser
        can_delete_pageuser can_add_pagepermission can_change_pagepermission
        can_delete_pagepermission grant_all).savedPageUser.userFields =
      { user with is_staff := true, is_active := true } ∧
    (create_page_user created_by user can_add_page can_view_page can_change_page
        can_delete_page can_recover_page can_add_pageuser can_change_pageuser
        can_delete_pageuser can_add_pagepermission can_change_pagepermission
        can_delete_pagepermission grant_all).savedPageUser.created_by = created_by := by
  cases grant_all <;>
    simp [create_page_user, create_page_user_main]

/-! ## Claims about the publication workflow -/

/-- C6: if the user lacks publish permission on the page,
`publish_page` fails with permission-denied and the publish operation is
never invoked (the outcome does not depend on it at all); if the user
holds the permission, the publish operation runs under that user's
identity and the refreshed draft page is returned. -/
theorem publish_page_permission_gate (perm : PageRec → UserRec → Bool)
    (publishOp publishOp2 : PublishState → Nat → String → String → PublishState)
    (st : PublishState) (page p0 p1 : PageRec) (user : UserRec) (language : String)
    (hfind : st.pages.find? (fun p => p.id == page.id) = some p0)
    (hfind1 : (publishOp st p0.id language user.username).pages.find?
      (fun p => p.id == p0.id) = some p1) :
    (perm p0 user = false →
      publish_page perm publishOp st page user language = .error .permissionDenied ∧
      publish_page perm publishOp st page user language =
        publish_page perm publishOp2 st page user language) ∧
    (perm p0 user = true →
      publish_page perm publishOp st page user language =
        .ok (publishOp st p0.id language user.username, p1)) := by
  constructor
  · intro hdenied
    constructor
    · simp [publish_page, hfind, hdenied]
    · simp [publish_page, hfind, hdenied]
  · intro hallowed
    simp [publish_page, hfind, hallowed, hfind1]

/-- C6 witness: a concrete one-page state where the permission engine
grants only user "alice"; the theorem is applied with the spec-modelled
publish operation and, for the independence conjunct, the identity
operation. -/
theorem publish_page_permission_gate_witness :
    ((fun _ u => u.username == "alice") :
        PageRec → UserRec → Bool) ⟨1, "a", "a", none, none, none, false, false, none,
        none, "t", none, none, 1, false, none, 0, true⟩ ⟨"bob", "b@x", false, false, false⟩ =
      false ∧
    publish_page (fun _ u => u.username == "alice") pagePublishAs
        ⟨[⟨1, "a", "a", none, none, none, false, false, none, none, "t", none, none, 1,
          false, none, 0, true⟩], []⟩
        ⟨1, "a", "a", none, none, none, false, false, none, none, "t", none, none, 1,
          false, none, 0, true⟩
        ⟨"bob", "b@x", false, false, false⟩ "en" = .error .permissionDenied ∧
    publish_page (fun _ u => u.username == "alice") pagePublishAs
        ⟨[⟨1, "a", "a", none, none, none, false, false, none, none, "t", none, none, 1,
          false, none, 0, true⟩], []⟩
        ⟨1, "a", "a", none, none, none, false, false, none, none, "t", none, none, 1,
          false, none, 0, true⟩
        ⟨"alice", "a@x", true, true, false⟩ "en" =
      .ok (⟨[⟨1, "a", "a", none, none, none, false, false, none, none, "t", none, none, 1,
          false, none, 0, true⟩], [(1, "en", "alice")]⟩,
        ⟨1, "a", "a", none, none, none, false, false, none, none, "t", none, none, 1,
          false, none, 0, true⟩) := by
  refine ⟨by decide, ?_, ?_⟩
  · exact ((publish_page_permission_gate (fun _ u => u.username == "alice")
      pagePublishAs (fun st _ _ _ => st)
      ⟨[⟨1, "a", "a", none, none, none, false, false, none, none, "t", none, none, 1,
        false, none, 0, true⟩], []⟩
      ⟨1, "a", "a", none, none, none, false, false, none, none, "t", none, none, 1,
        false, none, 0, true⟩
      ⟨1, "a", "a", none, none, none, false, false, none, none, "t", none, none, 1,
        false, none, 0, true⟩
      ⟨1, "a", "a", none, none, none, false, false, none, none, "t", none, none, 1,
        false, none, 0, true⟩
      ⟨"bob", "b@x", false, false, false⟩ "en" (by decide) (by decide)).1 (by decide)).1
  · exact (publish_page_permission_gate (fun _ u => u.username == "alice")
      pagePublishAs (fun st _ _ _ => st)
      ⟨[⟨1, "a", "a", none, none, none, false, false, none, none, "t", none, none, 1,
        false, none, 0, true⟩], []⟩
      ⟨1, "a", "a", none, none, none, false, false, none, none, "t", none, none, 1,
        false, none, 0, true⟩
      ⟨1, "a", "a", none, none, none, false, false, none, none, "t", none, none, 1,
        false, none, 0, true⟩
      ⟨1, "a", "a", none, none, none, false, false, none, none, "t", none, none, 1,
        false, none, 0, true⟩
      ⟨"alice", "a@x", true, true, false⟩ "en" (by decide) (by decide)).2 (by decide)

theorem all_eq_false_iff (l : List String) (f : String → Bool) :
    (l.all f = false) ↔ ∃ x ∈ l, f x = false := by
  rw [← Bool.not_eq_true, List.all_eq_true]
  push_neg
  simp [Bool.not_eq_true]

theorem bulkStepFn_snd (pub : Nat → String → Bool) (pageId : Nat) (language : Option String) :
    ∀ (langs : List String) (olang : Option String) (a : Bool),
      (langs.foldl (bulkStepFn pub pageId language) (olang, a)).2 =
        (a && (langs.filter (fun l => language.isNone || language == some l)).all
          (pub pageId)) := by
  intro langs
  induction langs with
  | nil => intro olang a; simp
  | cons l ls ih =>
    intro olang a
    by_cases hm : (language.isNone || language == some l) = true
    · rw [List.foldl_cons]
      rw [show bulkStepFn pub pageId language (olang, a) l =
        (if outLangFalsy olang then some l else olang,
         if pub pageId l then a else false) from by simp [bulkStepFn, hm]]
      rw [ih]
      rw [List.filter_cons, if_pos hm]
      cases hp : pub pageId l <;> cases a <;> simp [hp]
    · rw [List.foldl_cons]
      rw [show bulkStepFn pub pageId language (olang, a) l = (olang, a) from by
        simp [bulkStepFn, hm]]
      rw [ih]
      rw [List.filter_cons, if_neg hm]

theorem bulkStepFn_fst_keep (pub : Nat → String → Bool) (pageId : Nat)
    (language : Option String) :
    ∀ (langs : List String) (acc : Option String × Bool), outLangFalsy acc.1 = false →
      (langs.foldl (bulkStepFn pub pageId language) acc).1 = acc.1 := by
  intro langs
  induction langs with
  | nil => intro acc _; rfl
  | cons l ls ih =>
    intro acc hacc
    rw [List.foldl_cons]
    by_cases hm : (language.isNone || language == some l) = true
    · rw [show bulkStepFn pub pageId language acc l =
        (acc.1, if pub pageId l then acc.2 else false) from by simp [bulkStepFn, hm, hacc]]
      exact ih _ hacc
    · rw [show bulkStepFn pub pageId language acc l = acc from by simp [bulkStepFn, hm]]
      exact ih _ hacc

theorem bulkStepFn_fst (pub : Nat → String → Bool) (pageId : Nat)
    (language : Option String) :
    ∀ (langs : List String) (olang : Option String) (a : Bool),
      (∀ l ∈ langs, (language.isNone || language == some l) = true → l ≠ "") →
      (olang = none ∨ ∃ s, olang = some s ∧ s ≠ "") →
      (langs.foldl (bulkStepFn pub pageId language) (olang, a)).1 =
        olang.or ((langs.filter (fun l => language.isNone || language == some l)).head?) := by
  intro langs
  induction langs with
  | nil =>
    intro olang a _ _
    simp [Option.or_none]
  | cons l ls ih =>
    intro olang a hne holang
    rcases holang with rfl | ⟨s, rfl, hs⟩
    · rw [List.foldl_cons]
      by_cases hm : (language.isNone || language == some l) = true
      · have hlne : l ≠ "" := hne l (List.mem_cons_self l ls) hm
        rw [show bulkStepFn pub pageId language (none, a) l =
          (some l, if pub pageId l then a else false) from by simp [bulkStepFn, hm, outLangFalsy]]
        rw [bulkStepFn_fst_keep pub pageId language ls (some l, _) (by
          simp [outLangFalsy, hlne])]
        rw [List.filter_cons, if_pos hm]
        simp [Option.none_or]
      · rw [show bulkStepFn pub pageId language (none, a) l = (none, a) from by
          simp [bulkStepFn, hm]]
        rw [ih none a (fun x hx => hne x (List.mem_cons_of_mem l hx)) (Or.inl rfl)]
        rw [List.filter_cons, if_neg hm]
    · have hfalse : outLangFalsy (some s) = false := by simp [outLangFalsy, hs]
      rw [bulkStepFn_fst_keep pub pageId language (l :: ls) (some s, a) hfalse]
      simp [Option.or]

theorem publishPagesLoop_results (pub : Nat → String → Bool) (inc : Bool)
    (language : Option String) :
    ∀ (pages : List BulkPage) (olang : Option String),
      (publishPagesLoop pub inc language olang pages).1 =
        pages.map (fun p => (p, (bulkTargetedLangs inc language p).all (pub p.id))) := by
  intro pages
  induction pages with
  | nil => intro olang; rfl
  | cons p rest ih =>
    intro olang
    simp only [publishPagesLoop, List.map_cons]
    rw [ih]
    have hsnd : (bulkPageStep pub p.id language (bulkTitleLangs inc p) olang).2 =
        (bulkTargetedLangs inc language p).all (pub p.id) := by
      rw [bulkPageStep, bulkStepFn_snd, Bool.true_and]
      rfl
    rw [hsnd]

/-- C8: `publish_pages` yields exactly one `(page, success)` pair, in
order, for every draft page its filters select; the flag is false exactly
when at least one targeted language of that page failed to publish; and a
per-language publish failure only clears the flag, it is never turned
into an error value. -/
theorem publish_pages_one_pair_per_page (pub : Nat → String → Bool)
    (drafts : List BulkPage) (inc : Bool) (language : Option String)
    (site : Option Nat) :
    (publish_pages pub drafts inc language site).1 =
      (bulkQuerySet drafts inc site).map
        (fun p => (p, (bulkTargetedLangs inc language p).all (pub p.id))) ∧
    (∀ p flag, (p, flag) ∈ (publish_pages pub drafts inc language site).1 →
      (flag = false ↔ ∃ lang ∈ bulkTargetedLangs inc language p, pub p.id lang = false)) := by
  constructor
  · rw [publish_pages, publishPagesLoop_results]
  · intro p flag hmem
    rw [publish_pages, publishPagesLoop_results] at hmem
    rcases List.mem_map.mp hmem with ⟨q, _, heq⟩
    rcases Prod.mk.injEq .. ▸ heq with ⟨rfl, rfl⟩
    exact all_eq_false_iff _ _

/-- C8 witness: a concrete bulk run over two drafts where "fr" fails and
"en" succeeds: one pair per selected page, flags false exactly on the
page with the failing language. -/
theorem publish_pages_one_pair_per_page_witness :
    (publish_pages (fun _ lang => lang == "en")
        [⟨1, 1, [⟨"fr", true⟩, ⟨"en", true⟩]⟩, ⟨2, 1, [⟨"en", true⟩]⟩]
        false none none).1 =
      [(⟨1, 1, [⟨"fr", true⟩, ⟨"en", true⟩]⟩, false), (⟨2, 1, [⟨"en", true⟩]⟩, true)] ∧
    (false = false ↔ ∃ lang ∈ bulkTargetedLangs false none ⟨1, 1, [⟨"fr", true⟩, ⟨"en", true⟩]⟩,
      (fun (_ : Nat) (lang : String) => lang == "en") 1 lang = false) := by
  have h := publish_pages_one_pair_per_page (fun _ lang => lang == "en")
    [⟨1, 1, [⟨"fr", true⟩, ⟨"en", true⟩]⟩, ⟨2, 1, [⟨"en", true⟩]⟩] false none none
  constructor
  · rw [h.1]; decide
  · exact h.2 ⟨1, 1, [⟨"fr", true⟩, ⟨"en", true⟩]⟩ false (by rw [h.1]; decide)

theorem firstTargetedLang_cons (inc : Bool) (language : Option String)
    (p : BulkPage) (rest : List BulkPage) :
    firstTargetedLang inc language (p :: rest) =
      (bulkTargetedLangs inc language p).head?.or (firstTargetedLang inc language rest) := by
  simp [firstTargetedLang, List.head?_append]

theorem publishPagesLoop_activations (pub : Nat → String → Bool) (inc : Bool)
    (language : Option String) :
    ∀ (pages : List BulkPage) (olang : Option String),
      (∀ p ∈ pages, ∀ l ∈ bulkTargetedLangs inc language p, l ≠ "") →
      (olang = none ∨ ∃ s, olang = some s ∧ s ≠ "") →
      (publishPagesLoop pub inc language olang pages).2 =
        (List.range pages.length).map
          (fun k => olang.or (firstTargetedLang inc language (pages.take (k + 1)))) := by
  intro pages
  induction pages with
  | nil => intro olang _ _; rfl
  | cons p rest ih =>
    intro olang hne holang
    have hstep : (bulkPageStep pub p.id language (bulkTitleLangs inc p) olang).1 =
        olang.or (bulkTargetedLangs inc language p).head? := by
      rw [bulkPageStep, bulkStepFn_fst pub p.id language (bulkTitleLangs inc p) olang true
        ?_ holang]
      · rfl
      · intro l hl hm2
        exact hne p (List.mem_cons_self p rest) l (List.mem_filter.mpr ⟨hl, hm2⟩)
    have holang1 : olang.or (bulkTargetedLangs inc language p).head? = none ∨
        ∃ s, olang.or (bulkTargetedLangs inc language p).head? = some s ∧ s ≠ "" := by
      rcases holang with rfl | ⟨s, rfl, hs⟩
      · rw [Option.none_or]
        cases hh : (bulkTargetedLangs inc language p).head? with
        | none => exact Or.inl rfl
        | some l =>
          refine Or.inr ⟨l, rfl, ?_⟩
          exact hne p (List.mem_cons_self p rest) l (List.mem_of_mem_head? hh)
      · exact Or.inr ⟨s, rfl, hs⟩
    simp only [publishPagesLoop]
    rw [hstep]
    rw [ih (olang.or (bulkTargetedLangs inc language p).head?)
      (fun q hq => hne q (List.mem_cons_of_mem p hq)) holang1]
    rw [List.length_cons, List.range_succ_eq_map, List.map_cons, List.map_map]
    congr 1
    · rw [List.take_succ_cons, List.take_zero, firstTargetedLang_cons]
      simp [firstTargetedLang]
    · apply List.map_congr_left
      intro k _
      simp only [Function.comp_apply, Nat.succ_eq_add_one, List.take_succ_cons,
        firstTargetedLang_cons, Option.or_assoc]

theorem bulkTitleLangs_mem_ne (inc : Bool) (language : Option String) (p : BulkPage)
    (l : String) (hl : l ∈ bulkTargetedLangs inc language p) :
    l ∈ bulkTitleLangs inc p := by
  exact List.mem_of_mem_filter hl

/-- C9 counterexample: one draft with published titles "fr" then "en",
where publishing "fr" fails and publishing "en" succeeds.  The only
`activate` call receives "fr" (the first language attempted), not the
language of the first successfully published combination ("en"). -/
theorem publish_pages_activation_counterexample :
    (fun (_ : Nat) (lang : String) => lang == "en") 1 "fr" = false ∧
    (fun (_ : Nat) (lang : String) => lang == "en") 1 "en" = true ∧
    publish_pages (fun _ lang => lang == "en")
        [⟨1, 1, [⟨"fr", true⟩, ⟨"en", true⟩]⟩] false none none =
      ([(⟨1, 1, [⟨"fr", true⟩, ⟨"en", true⟩]⟩, false)], [some "fr"]) := by
  refine ⟨by decide, by decide, by decide⟩

/-- C9 amended: each `activate` call of `publish_pages` receives the
first language matched so far among the selected pages, independent of
whether any publish succeeded: the k-th activation is the first targeted
language of the first k+1 pages, and the whole activation sequence is
unchanged when the publish outcomes change. -/
theorem publish_pages_activation_amended (pub pub2 : Nat → String → Bool)
    (drafts : List BulkPage) (inc : Bool) (language : Option String) (site : Option Nat)
    (hne : ∀ p ∈ bulkQuerySet drafts inc site,
      ∀ l ∈ bulkTargetedLangs inc language p, l ≠ "") :
    (publish_pages pub drafts inc language site).2 =
      (List.range (bulkQuerySet drafts inc site).length).map
        (fun k => firstTargetedLang inc language ((bulkQuerySet drafts inc site).take (k + 1))) ∧
    (publish_pages pub drafts inc language site).2 =
      (publish_pages pub2 drafts inc language site).2 := by
  have h1 := publishPagesLoop_activations pub inc language
    (bulkQuerySet drafts inc site) none hne (Or.inl rfl)
  have h2 := publishPagesLoop_activations pub2 inc language
    (bulkQuerySet drafts inc site) none hne (Or.inl rfl)
  constructor
  · rw [publish_pages, h1]
    apply List.map_congr_left
    intro k _
    rw [Option.none_or]
  · rw [publish_pages, publish_pages, h1, h2]

/-- C9 amended witness: the counterexample scenario run through the
amended statement, with a second publish outcome function for the
independence conjunct. -/
theorem publish_pages_activation_amended_witness :
    (publish_pages (fun _ lang => lang == "en")
        [⟨1, 1, [⟨"fr", true⟩, ⟨"en", true⟩]⟩] false none none).2 =
      (List.range (bulkQuerySet [⟨1, 1, [⟨"fr", true⟩, ⟨"en", true⟩]⟩] false none).length).map
        (fun k => firstTargetedLang false none
          ((bulkQuerySet [⟨1, 1, [⟨"fr", true⟩, ⟨"en", true⟩]⟩] false none).take (k + 1))) ∧
    (publish_pages (fun _ lang => lang == "en")
        [⟨1, 1, [⟨"fr", true⟩, ⟨"en", true⟩]⟩] false none none).2 =
      (publish_pages (fun _ _ => true)
        [⟨1, 1, [⟨"fr", true⟩, ⟨"en", true⟩]⟩] false none none).2 :=
  publish_pages_activation_amended (fun _ lang => lang == "en") (fun _ _ => true)
    [⟨1, 1, [⟨"fr", true⟩, ⟨"en", true⟩]⟩] false none none (by decide)

/-! ## Claims about the language copy -/

theorem copyPlaceholderStep_populated_skip (s t : String) (ph : CPPlaceholder)
    (hpop : ph.plugins.any (fun p => p.language == t) = true) :
    copyPlaceholderStep s t true ph = (ph, 0) := by
  simp [copyPlaceholderStep, hpop]

theorem copyPlaceholderStep_length (s t : String) (oe : Bool) (ph : CPPlaceholder) :
    ((copyPlaceholderStep s t oe ph).1).plugins.length =
      ph.plugins.length + (copyPlaceholderStep s t oe ph).2 := by
  by_cases hc : (!oe || !(ph.plugins.any (fun p => p.language == t))) = true
  · simp [copyPlaceholderStep, hc, copy_plugins_to]
  · simp [copyPlaceholderStep, hc]

theorem copy_counts_aux (s t : String) (oe : Bool) :
    ∀ phs : List CPPlaceholder,
      ((((phs.map (copyPlaceholderStep s t oe)).map (fun o => o.1)).map
          (fun ph => ph.plugins.length)).sum =
        (phs.map (fun ph => ph.plugins.length)).sum +
          ((phs.map (copyPlaceholderStep s t oe)).map (fun o => o.2)).sum) := by
  intro phs
  induction phs with
  | nil => rfl
  | cons ph rest ih =>
    simp only [List.map_cons, List.sum_cons, copyPlaceholderStep_length, ih]
    omega

/-- C7: with `only_empty=True`, each placeholder already holding a
target-language plugin is left exactly as it was and contributes zero to
the count, while each empty one receives its copies - stated as a full
per-placeholder characterization on arbitrary pages (so mixed pages are
covered), plus the corollary that an all-populated page yields `(0,
page)`; with `only_empty=False` every placeholder receives a copy of
each of its source-language plugins appended in tree order and the count
is the total number of source plugins; in all cases the returned integer
equals the number of plugin rows added to the page. -/
theorem copy_plugins_to_language_spec (page : CPPage) (s t : String) :
    ((copy_plugins_to_language page s t true).2.placeholders =
      page.placeholders.map (fun ph =>
        if ph.plugins.any (fun p => p.language == t) then ph
        else { ph with plugins := ph.plugins ++ copy_plugins_to (sourcePluginsOrdered ph s) t }) ∧
     (copy_plugins_to_language page s t true).1 =
      (page.placeholders.map (fun ph =>
        if ph.plugins.any (fun p => p.language == t) then 0
        else (sourcePluginsOrdered ph s).length)).sum) ∧
    ((∀ ph ∈ page.placeholders, ph.plugins.any (fun p => p.language == t) = true) →
      copy_plugins_to_language page s t true = (0, page)) ∧
    ((copy_plugins_to_language page s t false).2.placeholders =
      page.placeholders.map (fun ph =>
        { ph with plugins := ph.plugins ++ copy_plugins_to (sourcePluginsOrdered ph s) t }) ∧
     (copy_plugins_to_language page s t false).1 =
      (page.placeholders.map (fun ph => (sourcePluginsOrdered ph s).length)).sum) ∧
    (∀ only_empty, (copy_plugins_to_language page s t only_empty).2.totalPlugins =
      page.totalPlugins + (copy_plugins_to_language page s t only_empty).1) := by
  obtain ⟨phs⟩ := page
  refine ⟨⟨?_, ?_⟩, ?_, ⟨?_, ?_⟩, ?_⟩
  · simp only [copy_plugins_to_language]
    rw [List.map_map]
    apply List.map_congr_left
    intro ph _
    by_cases hpop : ph.plugins.any (fun p => p.language == t) = true
    · simp [Function.comp, copyPlaceholderStep, hpop]
    · simp [Function.comp, copyPlaceholderStep, hpop]
  · simp only [copy_plugins_to_language]
    rw [List.map_map]
    congr 1
    apply List.map_congr_left
    intro ph _
    by_cases hpop : ph.plugins.any (fun p => p.language == t) = true
    · simp [Function.comp, copyPlaceholderStep, hpop]
    · simp [Function.comp, copyPlaceholderStep, hpop, copy_plugins_to]
  · intro hall
    have hstep : ∀ ph ∈ phs, copyPlaceholderStep s t true ph = (ph, 0) := by
      intro ph hph
      exact copyPlaceholderStep_populated_skip s t ph (hall ph hph)
    simp only [copy_plugins_to_language]
    refine Prod.ext ?_ ?_
    · apply List.sum_eq_zero
      intro x hx
      rcases List.mem_map.mp hx with ⟨o, ho, rfl⟩
      rcases List.mem_map.mp ho with ⟨ph, hph, rfl⟩
      simp [hstep ph hph]
    · show CPPage.mk _ = CPPage.mk phs
      congr 1
      conv_rhs => rw [← List.map_id phs]
      rw [List.map_map]
      apply List.map_congr_left
      intro ph hph
      simp [Function.comp, hstep ph hph]
  · simp only [copy_plugins_to_language]
    rw [List.map_map]
    apply List.map_congr_left
    intro ph _
    simp [Function.comp, copyPlaceholderStep]
  · simp only [copy_plugins_to_language]
    rw [List.map_map]
    congr 1
    apply List.map_congr_left
    intro ph _
    simp [Function.comp, copyPlaceholderStep, copy_plugins_to]
  · intro oe
    simp only [copy_plugins_to_language, CPPage.totalPlugins]
    exact copy_counts_aux s t oe phs

/-- C7 witness: first an all-populated page (single placeholder holding
a "de" plugin): copying into "de" with `only_empty=True` copies nothing
and returns the page unchanged; then a mixed page whose first
placeholder holds a "de" plugin while the second holds only an "en"
plugin: the populated placeholder is untouched, the empty one receives
the single copy, and the returned count is 1. -/
theorem copy_plugins_to_language_spec_witness :
    copy_plugins_to_language ⟨[⟨1, [⟨"de", "0001", "x"⟩, ⟨"en", "0002", "y"⟩]⟩]⟩
        "en" "de" true = (0, ⟨[⟨1, [⟨"de", "0001", "x"⟩, ⟨"en", "0002", "y"⟩]⟩]⟩) ∧
    (copy_plugins_to_language ⟨[⟨1, [⟨"de", "0001", "x"⟩, ⟨"en", "0002", "y"⟩]⟩,
        ⟨2, [⟨"en", "0001", "z"⟩]⟩]⟩ "en" "de" true).2.placeholders =
      [⟨1, [⟨"de", "0001", "x"⟩, ⟨"en", "0002", "y"⟩]⟩,
       ⟨2, [⟨"en", "0001", "z"⟩, ⟨"de", "0001", "z"⟩]⟩] ∧
    (copy_plugins_to_language ⟨[⟨1, [⟨"de", "0001", "x"⟩, ⟨"en", "0002", "y"⟩]⟩,
        ⟨2, [⟨"en", "0001", "z"⟩]⟩]⟩ "en" "de" true).1 = 1 := by
  refine ⟨(copy_plugins_to_language_spec ⟨[⟨1, [⟨"de", "0001", "x"⟩, ⟨"en", "0002", "y"⟩]⟩]⟩
    "en" "de").2.1 (by decide), ?_, ?_⟩
  · rw [(copy_plugins_to_language_spec ⟨[⟨1, [⟨"de", "0001", "x"⟩, ⟨"en", "0002", "y"⟩]⟩,
      ⟨2, [⟨"en", "0001", "z"⟩]⟩]⟩ "en" "de").1.1]
    simp [sourcePluginsOrdered, copy_plugins_to]
  · rw [(copy_plugins_to_language_spec ⟨[⟨1, [⟨"de", "0001", "x"⟩, ⟨"en", "0002", "y"⟩]⟩,
      ⟨2, [⟨"en", "0001", "z"⟩]⟩]⟩ "en" "de").1.2]
    simp [sourcePluginsOrdered]

/-! ## Claims about `create_page` -/

/-- C4: with all other validations passing, `create_page` with a
reverse_id already used by a draft page on the same site raises the
naming-conflict `FieldError`; when no draft on that site uses it (even
if a draft on another site does), the call succeeds and creates the
draft page carrying that reverse_id on that site. -/
theorem create_page_reverse_id_per_site (cfg : CmsConfig) (db : CmsDB) (a : CreatePageArgs)
    (newId siteId : Nat) (rid : String)
    (hrev : a.with_revision = false)
    (htmpl : a.template ∈ cfg.templates)
    (hload : a.template ∈ cfg.loadableTemplates)
    (hsite : a.site = some siteId)
    (hlang : a.language ∈ cfg.languagesOfSite siteId)
    (hpar : a.parent = none)
    (hnav : a.navigation_extenders = none)
    (hvis : a.limit_visibility_in_menu ∈ [VISIBILITY_ALL, VISIBILITY_USERS, VISIBILITY_ANONYMOUS])
    (hpos : a.position ∈ ["last-child", "first-child", "left", "right"])
    (happ : a.apphook = none)
    (hrid : a.reverse_id = some rid) (hridne : rid ≠ "")
    (hpub : a.published = false)
    (hfresh : ∀ p ∈ db.pages, p.id ≠ newId) :
    ((db.pages.filter (fun p => p.publisher_is_draft && p.reverse_id == some rid &&
        p.site == siteId)).length ≠ 0 →
      create_page cfg db a newId =
        .error (.fieldError "A page with this reverse_id already exists.")) ∧
    ((db.pages.filter (fun p => p.publisher_is_draft && p.reverse_id == some rid &&
        p.site == siteId)).length = 0 →
      ∃ db2 p, create_page cfg db a newId = .ok (db2, p) ∧
        p.reverse_id = some rid ∧ p.site = siteId ∧ p.publisher_is_draft = true) := by
  constructor
  · intro hdup
    simp only [create_page, hrev, hsite, hpar, hnav, happ, hrid, hpub, optStrFalsy]
    simp [htmpl, hload, hlang, hvis, hpos, hridne, hdup]
  · intro hnodup
    simp only [create_page, hrev, hsite, hpar, hnav, happ, hrid, hpub, optStrFalsy]
    simp [htmpl, hload, hlang, hvis, hpos, hridne, hnodup, create_title]
    have hfind : List.find? (fun p => p.id == newId) db.pages = none :=
      List.find?_eq_none.mpr (fun x hx => by simp [hfresh x hx])
    rw [hfind, Option.none_or]
    exact ⟨_, _, rfl, rfl, rfl, rfl⟩

/-- C3 amended: when the registered application behind the apphook
declares an app name and no namespace is supplied, `create_page` fails
with the namespace `ValidationError` for an apphook given as a string or
as an instance - but not as a class: `_verify_apphook` returns a class's
name before the namespace check, so the call goes through.  When a
namespace is supplied (so `_verify_apphook` succeeds), the call succeeds
and the created page's application binding is the apphook's normalized
name. -/
theorem create_page_apphook_namespace_amended (cfg : CmsConfig) (db : CmsDB)
    (a : CreatePageArgs) (newId siteId : Nat) (name : String) (appName : Option String)
    (ah : ApphookRef)
    (hrev : a.with_revision = false)
    (htmpl : a.template ∈ cfg.templates)
    (hload : a.template ∈ cfg.loadableTemplates)
    (hsite : a.site = some siteId)
    (hlang : a.language ∈ cfg.languagesOfSite siteId)
    (hpar : a.parent = none)
    (hnav : a.navigation_extenders = none)
    (hvis : a.limit_visibility_in_menu ∈ [VISIBILITY_ALL, VISIBILITY_USERS, VISIBILITY_ANONYMOUS])
    (hpos : a.position ∈ ["last-child", "first-child", "left", "right"])
    (hrid : a.reverse_id = none)
    (hpub : a.published = false)
    (hfresh : ∀ p ∈ db.pages, p.id ≠ newId) :
    ((a.apphook = some (.byString name) ∨ a.apphook = some (.byInstance name)) →
      lookupApphook cfg.apphooks name = some appName →
      optStrFalsy appName = false →
      optStrFalsy a.apphook_namespace = true →
      create_page cfg db a newId =
        .error (.validationError "apphook with app_name must define a namespace")) ∧
    (a.apphook = some ah →
      verify_apphook cfg.apphooks ah a.apphook_namespace = .ok (apphookName ah) →
      ∃ db2 p, create_page cfg db a newId = .ok (db2, p) ∧
        p.application_urls = some (apphookName ah) ∧
        p.application_namespace = a.apphook_namespace) ∧
    (verify_apphook cfg.apphooks (.byClass name) a.apphook_namespace = .ok name) ∧
    (optStrFalsy a.apphook_namespace = false →
      lookupApphook cfg.apphooks name = some appName →
      verify_apphook cfg.apphooks (.byString name) a.apphook_namespace = .ok name ∧
      verify_apphook cfg.apphooks (.byInstance name) a.apphook_namespace = .ok name) := by
  refine ⟨?_, ?_, rfl, ?_⟩
  · intro hah hlook happname hns
    rcases hah with hah | hah
    · have hverr : verify_apphook cfg.apphooks (.byString name) a.apphook_namespace =
          .error (.validationError "apphook with app_name must define a namespace") := by
        simp [verify_apphook, hlook, happname, hns]
      simp only [create_page, hrev, hsite, hpar, hnav, hah]
      simp [htmpl, hload, hlang, hvis, hpos, hverr]
    · have hverr : verify_apphook cfg.apphooks (.byInstance name) a.apphook_namespace =
          .error (.validationError "apphook with app_name must define a namespace") := by
        simp [verify_apphook, hlook, happname, hns]
      simp only [create_page, hrev, hsite, hpar, hnav, hah]
      simp [htmpl, hload, hlang, hvis, hpos, hverr]
  · intro hah hver
    simp only [create_page, hrev, hsite, hpar, hnav, hah, hrid, hpub, optStrFalsy]
    simp [htmpl, hload, hlang, hvis, hpos, hver, create_title]
    have hfind : List.find? (fun p => p.id == newId) db.pages = none :=
      List.find?_eq_none.mpr (fun x hx => by simp [hfresh x hx])
    rw [hfind, Option.none_or]
    exact ⟨_, _, rfl, rfl, rfl⟩
  · intro hns hlook
    constructor <;> simp [verify_apphook, hlook, hns]

/-- C3 counterexample: an apphook passed as a class whose registered
application declares an app name, with no namespace supplied: the call
does not fail; it succeeds and stores the class name as the binding. -/
theorem create_page_apphook_class_counterexample :
    lookupApphook [("MyApp", some "myapp")] "MyApp" = some (some "myapp") ∧
    ((create_page ⟨["t"], ["t"], 1, fun _ => ["en"], [], [("MyApp", some "myapp")], false,
        fun s => s⟩ ⟨[], [], []⟩
      { title := "Home", template := "t", language := "en", slug := some "home",
        apphook := some (.byClass "MyApp"), apphook_namespace := none } 1).map
      (fun r => (r.2.application_urls, r.2.application_namespace))) =
    .ok (some "MyApp", none) := by
  exact ⟨by decide, by decide⟩

/-- C3 witness: concrete runs of the amended statement: the string form
without a namespace fails with the validation error, the same call with
a namespace succeeds and stores the binding "MyApp". -/
theorem create_page_apphook_namespace_amended_witness :
    create_page ⟨["t"], ["t"], 1, fun _ => ["en"], [], [("MyApp", some "myapp")], false,
        fun s => s⟩ ⟨[], [], []⟩
      { title := "Home", template := "t", language := "en", slug := some "home",
        apphook := some (.byString "MyApp"), apphook_namespace := none, site := some 1 } 1 =
      .error (.validationError "apphook with app_name must define a namespace") ∧
    (∃ db2 p, create_page ⟨["t"], ["t"], 1, fun _ => ["en"], [], [("MyApp", some "myapp")],
        false, fun s => s⟩ ⟨[], [], []⟩
      { title := "Home", template := "t", language := "en", slug := some "home",
        apphook := some (.byString "MyApp"), apphook_namespace := some "ns",
        site := some 1 } 1 = .ok (db2, p) ∧
      p.application_urls = some "MyApp" ∧ p.application_namespace = some "ns") ∧
    verify_apphook [("MyApp", some "myapp")] (.byClass "MyApp") none = .ok "MyApp" := by
  refine ⟨?_, ?_, ?_⟩
  · exact (create_page_apphook_namespace_amended
      ⟨["t"], ["t"], 1, fun _ => ["en"], [], [("MyApp", some "myapp")], false, fun s => s⟩
      ⟨[], [], []⟩
      { title := "Home", template := "t", language := "en", slug := some "home",
        apphook := some (.byString "MyApp"), apphook_namespace := none, site := some 1 }
      1 1 "MyApp" (some "myapp") (.byString "MyApp") rfl (by decide) (by decide) rfl
      (by decide) rfl rfl (by decide) (by decide) rfl rfl (by decide)).1
      (Or.inl rfl) (by decide) (by decide) (by decide)
  · exact (create_page_apphook_namespace_amended
      ⟨["t"], ["t"], 1, fun _ => ["en"], [], [("MyApp", some "myapp")], false, fun s => s⟩
      ⟨[], [], []⟩
      { title := "Home", template := "t", language := "en", slug := some "home",
        apphook := some (.byString "MyApp"), apphook_namespace := some "ns", site := some 1 }
      1 1 "MyApp" (some "myapp") (.byString "MyApp") rfl (by decide) (by decide) rfl
      (by decide) rfl rfl (by decide) (by decide) rfl rfl (by decide)).2.1
      rfl (by decide)
  · exact (create_page_apphook_namespace_amended
      ⟨["t"], ["t"], 1, fun _ => ["en"], [], [("MyApp", some "myapp")], false, fun s => s⟩
      ⟨[], [], []⟩
      { title := "Home", template := "t", language := "en", slug := some "home",
        apphook := some (.byClass "MyApp"), apphook_namespace := none, site := some 1 }
      1 1 "MyApp" (some "myapp") (.byClass "MyApp") rfl (by decide) (by decide) rfl
      (by decide) rfl rfl (by decide) (by decide) rfl rfl (by decide)).2.2.1

/-- C4 witness: a store already holding a draft with reverse_id "news"
on site 2: creating a page with reverse_id "news" succeeds on site 1 and
fails with the naming-conflict error on site 2. -/
theorem create_page_reverse_id_per_site_witness :
    (∃ db2 p, create_page ⟨["t"], ["t"], 1, fun _ => ["en"], [], [], false, fun s => s⟩
        ⟨[⟨5, "x", "x", none, none, none, false, false, some "news", none, "t", none, none,
          2, false, none, 0, true⟩], [], []⟩
      { title := "Home", template := "t", language := "en", slug := some "home",
        reverse_id := some "news", site := some 1 } 9 = .ok (db2, p) ∧
      p.reverse_id = some "news" ∧ p.site = 1 ∧ p.publisher_is_draft = true) ∧
    create_page ⟨["t"], ["t"], 1, fun _ => ["en"], [], [], false, fun s => s⟩
        ⟨[⟨5, "x", "x", none, none, none, false, false, some "news", none, "t", none, none,
          2, false, none, 0, true⟩], [], []⟩
      { title := "Home", template := "t", language := "en", slug := some "home",
        reverse_id := some "news", site := some 2 } 9 =
      .error (.fieldError "A page with this reverse_id already exists.") := by
  constructor
  · exact (create_page_reverse_id_per_site
      ⟨["t"], ["t"], 1, fun _ => ["en"], [], [], false, fun s => s⟩
      ⟨[⟨5, "x", "x", none, none, none, false, false, some "news", none, "t", none, none,
        2, false, none, 0, true⟩], [], []⟩
      { title := "Home", template := "t", language := "en", slug := some "home",
        reverse_id := some "news", site := some 1 } 9 1 "news" rfl (by decide) (by decide)
      rfl (by decide) rfl rfl (by decide) (by decide) rfl rfl (by decide) rfl (by decide)).2
      (by decide)
  · exact (create_page_reverse_id_per_site
      ⟨["t"], ["t"], 1, fun _ => ["en"], [], [], false, fun s => s⟩
      ⟨[⟨5, "x", "x", none, none, none, false, false, some "news", none, "t", none, none,
        2, false, none, 0, true⟩], [], []⟩
      { title := "Home", template := "t", language := "en", slug := some "home",
        reverse_id := some "news", site := some 2 } 9 2 "news" rfl (by decide) (by decide)
      rfl (by decide) rfl rfl (by decide) (by decide) rfl rfl (by decide) rfl (by decide)).1
      (by decide)
